import Mathlib

/-!
# Verification of the cli-utils apply/destroy core

A shallow embedding of the Go sources:
* `pkg/inventory` (marker recognition, batch splitting, legacy-name suffixing),
* the `BasicPrinter` event consumer (`cmd/apply`),
* the `Destroyer` and its prune-to-delete event transformer (`pkg/apply`).

Go pointers are modelled as `Option`, in-place mutation as explicit state
passing, channels as the list of values sent on them (in order; closing the
channel corresponds to the end of the list), and a Go `panic` as an `Option`
result of `none` (the aborting branch).  Go `map` fields are modelled as
association lists in insertion order.
-/

set_option maxRecDepth 4000

namespace CliUtils

/-- The object identity fields the printer renders (`schema.GroupKind`). -/
structure GroupKind where
  group : String
  kind : String
  deriving DecidableEq, Repr, Inhabited

/-- `object.ObjMetadata`: (group-kind, namespace, name) identity. -/
structure ObjMetadata where
  ns : String
  name : String
  groupKind : GroupKind
  deriving DecidableEq, Repr, Inhabited

/-- A `*unstructured.Unstructured` object body: the fields the embedded code
reads (name, group/kind, and the labels map as an association list). -/
structure Unstructured where
  name : String
  group : String
  kind : String
  labels : List (String × String)
  deriving DecidableEq, Repr, Inhabited

/-- `GroupVersionKind().GroupKind()` of an unstructured object. -/
def Unstructured.groupKind (u : Unstructured) : GroupKind :=
  { group := u.group, kind := u.kind }

/-- Go `error` values produced by the embedded code.  `errorf` stands for
`fmt.Errorf` with the already-formatted message; `wrapped` stands for
`errors.WrapPrefix`. -/
inductive GoError where
  | noInventoryObj : GoError
  | multipleInventoryObj : List (Option Unstructured) → GoError
  | errorf : String → GoError
  | wrapped : String → GoError → GoError
  deriving DecidableEq, Repr, Inhabited

/-- A `*resource.Info`: its `Name` field and its (possibly nil) `Object`. -/
structure Info where
  name : String
  object : Option Unstructured
  deriving DecidableEq, Repr, Inhabited

/-- `object.InfoToUnstructured`: view the info's object as unstructured. -/
def InfoToUnstructured (info : Info) : Option Unstructured :=
  info.object

/-- The byte classes `strings.TrimSpace` removes (ASCII whitespace; the label
values and suffixes handled by this code are ASCII). -/
def isGoSpace (c : Char) : Bool :=
  c = ' ' || c = '\t' || c = '\n' || c = '\r' || c = '\x0b' || c = '\x0c'

/-- Character-list core of `strings.TrimSpace`. -/
def trimChars (l : List Char) : List Char :=
  ((l.dropWhile isGoSpace).reverse.dropWhile isGoSpace).reverse

/-- `strings.TrimSpace`. -/
def strTrim (s : String) : String :=
  ⟨trimChars s.data⟩

/-- `strings.HasSuffix` / `strings.HasSuffix`-style suffix test. -/
def hasSuffix (s suffix : String) : Bool :=
  suffix.data.isSuffixOf s.data

/-- `common.InventoryLabel`, the discriminating label key carried by the
inventory marker object (the spec, §6: "a namespaced object carrying a
recognized discriminating label"; the concrete key value is immaterial). -/
def InventoryLabel : String := "cli-utils.sigs.k8s.io/inventory-id"

/-- Lookup in a Go label map (association list). -/
def lookupLabel (labels : List (String × String)) (key : String) : Option String :=
  (labels.find? (fun p => p.1 = key)).map (fun p => p.2)

/-- `inventory.retrieveInventoryLabel`: the trimmed value of the inventory
label, or an error if the object is nil or the label is missing. -/
def retrieveInventoryLabel (obj : Option Unstructured) : Except GoError String :=
  match obj with
  | none => .error (.errorf "inventory info is nil")
  | some u =>
    match lookupLabel u.labels InventoryLabel with
    | none => .error (.errorf ("inventory label does not exist for inventory object: " ++ InventoryLabel))
    | some v => .ok (strTrim v)

/-- `inventory.IsInventoryObject`: true when the object is non-nil and its
inventory label retrieves without error to a non-empty (trimmed) value. -/
def IsInventoryObject (obj : Option Unstructured) : Bool :=
  match obj with
  | none => false
  | some _ =>
    match retrieveInventoryLabel obj with
    | .ok v => decide (v.length > 0)
    | .error _ => false

/-- The accumulation loop of `inventory.SplitInfos`: entries that are nil or
have a nil `Object` are skipped; the rest are routed to the inventory list or
the resource list by `IsInventoryObject`. -/
def splitInfosLoop : List (Option Info) → List Info × List Info
  | [] => ([], [])
  | none :: rest => splitInfosLoop rest
  | some info :: rest =>
    if info.object.isSome then
      let (invs, resources) := splitInfosLoop rest
      if IsInventoryObject (InfoToUnstructured info) then
        (info :: invs, resources)
      else
        (invs, info :: resources)
    else
      splitInfosLoop rest

/-- `inventory.SplitInfos`: split a batch of infos into (inventory marker,
resources, error).  Zero markers yields `NoInventoryObjError`; more than one
yields `MultipleInventoryObjError` carrying every marker candidate. -/
def SplitInfos (infos : List (Option Info)) : Option Info × List Info × Option GoError :=
  let (invs, resources) := splitInfosLoop infos
  if invs.length = 0 then
    (none, resources, some .noInventoryObj)
  else if invs.length > 1 then
    (none, resources, some (.multipleInventoryObj (invs.map InfoToUnstructured)))
  else
    (invs.head?, resources, none)

/-- The accumulation loop of `inventory.SplitUnstructureds` (no nil skipping:
a nil entry is simply not an inventory object). -/
def splitUnstructuredsLoop : List (Option Unstructured) → List (Option Unstructured) × List (Option Unstructured)
  | [] => ([], [])
  | obj :: rest =>
    let (invs, resources) := splitUnstructuredsLoop rest
    if IsInventoryObject obj then
      (obj :: invs, resources)
    else
      (invs, obj :: resources)

/-- `inventory.SplitUnstructureds`. -/
def SplitUnstructureds (objs : List (Option Unstructured)) :
    Option Unstructured × List (Option Unstructured) × Option GoError :=
  let (invs, resources) := splitUnstructuredsLoop objs
  if invs.length = 0 then
    (none, resources, some .noInventoryObj)
  else if invs.length > 1 then
    (none, resources, some (.multipleInventoryObj invs))
  else
    (invs.head?.join, resources, none)

/-- `accessor.GetName()` through `meta.Accessor(info.Object)`.  (On a nil
object Go would crash; every caller in the embedded code checks the object
for nil first, so the `none` branch is never exercised.) -/
def accessorGetName (obj : Option Unstructured) : String :=
  match obj with
  | some u => u.name
  | none => ""

/-- `inventory.addSuffixToName`, in state-passing form: the first component
of the result is the info after the call (unchanged on every error path,
renamed on success), the second is the returned error. -/
def addSuffixToName (info? : Option Info) (suffix : String) : Option Info × Option GoError :=
  match info? with
  | none => (none, some (.errorf "nil resource.Info"))
  | some info =>
    let suffix := strTrim suffix
    if suffix.length = 0 then
      (some info, some (.errorf "passed empty suffix"))
    else
      let name := accessorGetName info.object
      if name ≠ info.name then
        (some info, some (.errorf ("inventory object (" ++ name ++ ") and resource.Info (" ++ info.name ++ ") have different names")))
      else
        let suffix := "-" ++ suffix
        if hasSuffix name suffix then
          (some info, some (.errorf ("name already has suffix: " ++ name)))
        else
          let name := name ++ suffix
          (some { name := name, object := (info.object).map (fun u => { u with name := name }) }, none)

/-- `inventory.legacyInvName`, the reserved legacy default marker name. -/
def legacyInvName : String := "inventory"

/-- The character set of `common.RandomStr`. -/
def randomCharset : List Char := "abcdefghijklmnopqrstuvwxyz0123456789".data

/-- Modelled from the spec: `common.RandomStr` (pkg/common, not part of the
source subset) produces a "random, time-seeded suffix" — a non-empty string
drawn from a fixed alphanumeric character set, deterministic in the seed. -/
def RandomStr (seed : Int) : String :=
  ⟨(List.range 8).map (fun i => randomCharset.getD ((seed.natAbs + 31 * i) % randomCharset.length) 'a')⟩

/-- `inventory.fixLegacyInventoryName`: rename the marker when it carries the
reserved legacy default name, appending `common.RandomStr` of the time-derived
seed (the seed is passed explicitly here).  State-passing as for
`addSuffixToName`. -/
def fixLegacyInventoryName (info? : Option Info) (seed : Int) : Option Info × Option GoError :=
  match info? with
  | none => (none, some (.errorf "invalid inventory object is nil or info.Object is nil"))
  | some info =>
    match info.object with
    | none => (some info, some (.errorf "invalid inventory object is nil or info.Object is nil"))
    | some obj =>
      let name := obj.name
      if info.name = legacyInvName || name = legacyInvName then
        addSuffixToName (some info) (RandomStr seed)
      else
        (some info, none)

/-! ## The event taxonomy (`pkg/apply/event`, modelled from the spec, §3)

The event package itself is repository code outside the embedded subset; the
spec fixes its shape: a discriminated union over
{Init, Apply, Status, Prune, Delete, Error}, with operation enums
Apply ∈ {ServersideApplied, Created, Unchanged, Configured, Failed},
Prune ∈ {Pruned, PruneSkipped}, Delete ∈ {Deleted, DeleteSkipped}, and each
sub-event either a "phase completed" marker or a per-object resource update.
As in Go, an `Event` carries every sub-event field (unused ones zero). -/

/-- `event.ApplyEventType`. -/
inductive ApplyEventType where
  | resourceUpdate
  | completed
  deriving DecidableEq, Repr, Inhabited

/-- `event.ApplyEventOperation` (declared members per the spec, §3). -/
inductive ApplyEventOperation where
  | serversideApplied
  | created
  | unchanged
  | configured
  | failed
  deriving DecidableEq, Repr, Inhabited

/-- `event.PruneEventType`. -/
inductive PruneEventType where
  | resourceUpdate
  | completed
  deriving DecidableEq, Repr, Inhabited

/-- `event.PruneEventOperation` (declared members per the spec, §3). -/
inductive PruneEventOperation where
  | pruned
  | pruneSkipped
  deriving DecidableEq, Repr, Inhabited

/-- `event.DeleteEventType`. -/
inductive DeleteEventType where
  | resourceUpdate
  | completed
  deriving DecidableEq, Repr, Inhabited

/-- `event.DeleteEventOperation` (declared members per the spec, §3). -/
inductive DeleteEventOperation where
  | deleted
  | deleteSkipped
  deriving DecidableEq, Repr, Inhabited

/-- `event.Type`, the top-level discriminant. -/
inductive EventType where
  | init
  | apply
  | status
  | prune
  | delete
  | error
  deriving DecidableEq, Repr, Inhabited

/-- `event.ApplyEvent`. -/
structure ApplyEvent where
  type : ApplyEventType := default
  operation : ApplyEventOperation := default
  object : Option Unstructured := none
  deriving DecidableEq, Repr, Inhabited

/-- `event.PruneEvent`. -/
structure PruneEvent where
  type : PruneEventType := default
  operation : PruneEventOperation := default
  object : Option Unstructured := none
  deriving DecidableEq, Repr, Inhabited

/-- `event.DeleteEvent`. -/
structure DeleteEvent where
  type : DeleteEventType := default
  operation : DeleteEventOperation := default
  object : Option Unstructured := none
  deriving DecidableEq, Repr, Inhabited

/-- `event.ErrorEvent`. -/
structure ErrorEvent where
  err : GoError := .errorf ""
  deriving DecidableEq, Repr, Inhabited

/-- `pollevent.EventType` (kstatus polling events). -/
inductive PollEventType where
  | resourceUpdate
  | errorEvent
  | completed
  | aborted
  deriving DecidableEq, Repr, Inhabited

/-- The `Resource` record of a poll event: identifier plus the rendered
status and message the printer displays. -/
structure PollResource where
  identifier : ObjMetadata := default
  status : String := ""
  message : String := ""
  deriving DecidableEq, Repr, Inhabited

/-- `pollevent.Event`; `error` holds the rendered `Error()` string. -/
structure PollEvent where
  eventType : PollEventType := default
  resource : PollResource := default
  error : String := ""
  deriving DecidableEq, Repr, Inhabited

/-- `event.Event`: the discriminant plus every sub-event field, as in Go. -/
structure Event where
  type : EventType
  errorEvent : ErrorEvent := default
  applyEvent : ApplyEvent := default
  statusEvent : PollEvent := default
  pruneEvent : PruneEvent := default
  deleteEvent : DeleteEvent := default
  deriving DecidableEq, Repr, Inhabited

/-! ## Destroyer and the prune-to-delete event transformer (`pkg/apply`) -/

/-- `apply.transformPruneOperation`.  The Go switch has an aborting `default`
branch; `none` models reaching it. -/
def transformPruneOperation (pruneOp : PruneEventOperation) : Option DeleteEventOperation :=
  match pruneOp with
  | .pruneSkipped => some .deleteSkipped
  | .pruned => some .deleted

/-- The event-level body of the transformer goroutine: every message received
on the temporary channel is republished as a Delete resource-update carrying
the transformed operation and the same object. -/
def transformPruneMsg (msg : Event) : Option Event :=
  (transformPruneOperation msg.pruneEvent.operation).map (fun op =>
    { type := .delete,
      deleteEvent := { type := .resourceUpdate, operation := op, object := msg.pruneEvent.object } })

/-- `apply.runPruneEventTransformer`, as a function from the list of events
sent on the temporary channel (until its closure) to the list republished on
the public channel; `none` models the goroutine aborting in
`transformPruneOperation`. -/
def runPruneEventTransformer (msgs : List Event) : Option (List Event) :=
  msgs.mapM transformPruneMsg

/-- The spec's description of the relabeling (§4.4): a Prune resource update
becomes a Delete resource update, Pruned→Deleted, PruneSkipped→DeleteSkipped,
same object.  Stated separately to compare the code's transformer against. -/
def deleteEventFor (msg : Event) : Event :=
  { type := .delete,
    deleteEvent :=
      { type := .resourceUpdate,
        operation :=
          match msg.pruneEvent.operation with
          | .pruned => .deleted
          | .pruneSkipped => .deleteSkipped,
        object := msg.pruneEvent.object } }

/-- The externally observable side calls `Destroyer.Run` makes, in order:
the single `PruneOptions.Prune` invocation, and the best-effort inventory
marker deletion together with the (discarded) error it returned. -/
inductive DestroyAction where
  | pruneCall
  | deleteMarker : Option GoError → DestroyAction
  deriving DecidableEq, Repr, Inhabited

/-- The external collaborators of one `Destroyer.Run` invocation:
what `ApplyOptions.GetObjects` returns, the events `PruneOptions.Prune`
sends on the temporary channel and the error it returns, and the error
`invClient.DeleteInventoryObj` returns. -/
structure DestroyerInputs where
  getObjects : Except GoError (List (Option Info))
  pruneMsgs : List Event
  pruneErr : Option GoError
  deleteInvErr : Option GoError
  deriving Repr

/-- Helper: an Error event wrapping `err`. -/
def mkErrorEvent (err : GoError) : Event :=
  { type := .error, errorEvent := { err := err } }

/-- `apply.Destroyer.Run`: the ordered list of events emitted on the public
channel before it is closed, plus the trace of external side calls.  The
transformer's republished events all precede the final event because `Run`
closes the temporary channel and waits on the completion channel before
sending it. -/
def destroyerRun (inp : DestroyerInputs) : List Event × List DestroyAction :=
  match inp.getObjects with
  | .error e => ([mkErrorEvent (.wrapped "error reading resource manifests" e)], [])
  | .ok infos =>
    match SplitInfos infos with
    | (_, _, some e) => ([mkErrorEvent (.wrapped "error clearing inventory object" e)], [])
    | (invInfo, _, none) =>
      let transformed := (runPruneEventTransformer inp.pruneMsgs).getD []
      let actions :=
        [DestroyAction.pruneCall] ++
          (if invInfo.isSome then [DestroyAction.deleteMarker inp.deleteInvErr] else [])
      match inp.pruneErr with
      | some e => (transformed ++ [mkErrorEvent (.wrapped "error pruning resources" e)], actions)
      | none =>
        (transformed ++ [{ type := .delete, deleteEvent := { type := .completed } }], actions)

/-- True when the run takes one of its fatal-error paths (manifest read
failure, split failure, or a prune error). -/
def destroyerFatal (inp : DestroyerInputs) : Bool :=
  match inp.getObjects with
  | .error _ => true
  | .ok infos => (SplitInfos infos).2.2.isSome || inp.pruneErr.isSome

/-! ## BasicPrinter (`cmd/apply`) -/

/-- `common.DryRunStrategy` (spec, §3: {None, ClientOnly, ServerSide}). -/
inductive DryRunStrategy where
  | noDryRun
  | clientDryRun
  | serverDryRun
  deriving DecidableEq, Repr, Inhabited

/-- `BasicPrinter.getPrintFunc`: the suffix appended to every printed line
(the trailing newline of `Fprintf` is left implicit). -/
def printLine (strategy : DryRunStrategy) (s : String) : String :=
  match strategy with
  | .clientDryRun => s ++ " (preview)"
  | .serverDryRun => s ++ " (preview-server)"
  | .noDryRun => s

/-- The `applyStats` counter record. -/
structure ApplyStats where
  serversideApplied : Nat := 0
  created : Nat := 0
  unchanged : Nat := 0
  configured : Nat := 0
  deriving DecidableEq, Repr, Inhabited

/-- `applyStats.inc`: the switch over the apply operation; `none` models the
aborting `default` branch (reached by `Failed`, which the switch does not
handle). -/
def ApplyStats.inc (a : ApplyStats) (op : ApplyEventOperation) : Option ApplyStats :=
  match op with
  | .serversideApplied => some { a with serversideApplied := a.serversideApplied + 1 }
  | .created => some { a with created := a.created + 1 }
  | .unchanged => some { a with unchanged := a.unchanged + 1 }
  | .configured => some { a with configured := a.configured + 1 }
  | .failed => none

/-- `applyStats.sum`. -/
def ApplyStats.total (a : ApplyStats) : Nat :=
  a.serversideApplied + a.configured + a.unchanged + a.created

/-- The `pruneStats` counter record. -/
structure PruneStats where
  pruned : Nat := 0
  skipped : Nat := 0
  deriving DecidableEq, Repr, Inhabited

/-- The `deleteStats` counter record. -/
structure DeleteStats where
  deleted : Nat := 0
  skipped : Nat := 0
  deriving DecidableEq, Repr, Inhabited

/-- The `statusCollector`: the latest poll event per identifier (a Go map,
modelled in insertion order) and the print flag. -/
structure StatusCollector where
  latestStatus : List (ObjMetadata × PollEvent) := []
  printStatus : Bool := false
  deriving DecidableEq, Repr, Inhabited

/-- `statusCollector.updateStatus`: map assignment. -/
def updateStatus (m : List (ObjMetadata × PollEvent)) (id : ObjMetadata) (se : PollEvent) :
    List (ObjMetadata × PollEvent) :=
  match m with
  | [] => [(id, se)]
  | (k, v) :: rest => if k = id then (id, se) :: rest else (k, v) :: updateStatus rest id se

/-- `getName`: the object's name, or a placeholder when absent/empty. -/
def getName (obj : Option Unstructured) : String :=
  match obj with
  | some u => if u.name.length > 0 then u.name else "<unknown>"
  | none => "<unknown>"

/-- `GroupKind.String()`: `kind` or `kind.group`. -/
def groupKindString (gk : GroupKind) : String :=
  if gk.group = "" then gk.kind else gk.kind ++ "." ++ gk.group

/-- `resourceIDToString`. -/
def resourceIDToString (gk : GroupKind) (name : String) : String :=
  (groupKindString gk).toLower ++ "/" ++ name

/-- The `printResourceStatus` line. -/
def resourceStatusLine (id : ObjMetadata) (se : PollEvent) : String :=
  resourceIDToString id.groupKind id.name ++ " is " ++ se.resource.status ++ ": " ++ se.resource.message

/-- The apply-completed summary line (`"%d resource(s) applied. ..."`). -/
def applySummaryLine (a : ApplyStats) : String :=
  let base := toString a.total ++ " resource(s) applied. " ++ toString a.created ++ " created, "
    ++ toString a.unchanged ++ " unchanged, " ++ toString a.configured ++ " configured"
  if a.serversideApplied > 0 then
    base ++ ", " ++ toString a.serversideApplied ++ " serverside applied"
  else
    base

/-- The prune-completed summary line (`"%d resource(s) pruned, %d skipped"`). -/
def pruneSummaryLine (pruned skipped : Nat) : String :=
  toString pruned ++ " resource(s) pruned, " ++ toString skipped ++ " skipped"

/-- The delete-completed summary line. -/
def deleteSummaryLine (deleted skipped : Nat) : String :=
  toString deleted ++ " resource(s) deleted, " ++ toString skipped ++ " skipped"

/-- The rendered name of an apply operation (`op.String()`, lower-cased at
the call site; member names per the spec, §3). -/
def applyOpString (op : ApplyEventOperation) : String :=
  match op with
  | .serversideApplied => "ServersideApplied"
  | .created => "Created"
  | .unchanged => "Unchanged"
  | .configured => "Configured"
  | .failed => "Failed"

/-- `BasicPrinter.processApplyEvent`: returns the updated stats, collector
and output lines, or `none` when Go would crash (a resource update whose
object is nil, or an operation `applyStats.inc` does not handle). -/
def processApplyEvent (strategy : DryRunStrategy) (ae : ApplyEvent) (a : ApplyStats)
    (c : StatusCollector) (out : List String) :
    Option (ApplyStats × StatusCollector × List String) :=
  match ae.type with
  | .completed =>
    let out := out ++ [printLine strategy (applySummaryLine a)]
    let c := { c with printStatus := true }
    let out := out ++ c.latestStatus.map (fun p => printLine strategy (resourceStatusLine p.1 p.2))
    some (a, c, out)
  | .resourceUpdate =>
    match ae.object with
    | none => none
    | some obj =>
      let name := getName ae.object
      match a.inc ae.operation with
      | none => none
      | some a' =>
        some (a', c, out ++ [printLine strategy (resourceIDToString obj.groupKind name ++ " " ++ (applyOpString ae.operation).toLower)])

/-- `BasicPrinter.processStatusEvent`. -/
def processStatusEvent (strategy : DryRunStrategy) (se : PollEvent) (sc : StatusCollector)
    (out : List String) : StatusCollector × List String :=
  match se.eventType with
  | .resourceUpdate =>
    let id := se.resource.identifier
    let sc' := { sc with latestStatus := updateStatus sc.latestStatus id se }
    if sc'.printStatus then
      (sc', out ++ [printLine strategy (resourceStatusLine id se)])
    else
      (sc', out)
  | .errorEvent =>
    let id := se.resource.identifier
    (sc, out ++ [printLine strategy (resourceIDToString id.groupKind id.name ++ " error: " ++ se.error ++ "\n")])
  | .completed =>
    ({ sc with printStatus := false }, out ++ [printLine strategy "all resources has reached the Current status"])
  | .aborted =>
    ({ sc with printStatus := false }, out ++ [printLine strategy "resources failed to the reached Current status"])

/-- `BasicPrinter.processPruneEvent`; `none` models the crash on a nil
object in a resource update. -/
def processPruneEvent (strategy : DryRunStrategy) (pe : PruneEvent) (ps : PruneStats)
    (out : List String) : Option (PruneStats × List String) :=
  match pe.type with
  | .completed =>
    some (ps, out ++ [printLine strategy (pruneSummaryLine ps.pruned ps.skipped)])
  | .resourceUpdate =>
    match pe.object with
    | none => none
    | some obj =>
      let name := getName pe.object
      match pe.operation with
      | .pruned =>
        some ({ ps with pruned := ps.pruned + 1 },
          out ++ [printLine strategy (resourceIDToString obj.groupKind name ++ " " ++ "pruned")])
      | .pruneSkipped =>
        some ({ ps with skipped := ps.skipped + 1 },
          out ++ [printLine strategy (resourceIDToString obj.groupKind name ++ " " ++ "prune skipped")])

/-- `BasicPrinter.processDeleteEvent`. -/
def processDeleteEvent (strategy : DryRunStrategy) (de : DeleteEvent) (ds : DeleteStats)
    (out : List String) : Option (DeleteStats × List String) :=
  match de.type with
  | .completed =>
    some (ds, out ++ [printLine strategy (deleteSummaryLine ds.deleted ds.skipped)])
  | .resourceUpdate =>
    match de.object with
    | none => none
    | some obj =>
      let name := getName de.object
      match de.operation with
      | .deleted =>
        some ({ ds with deleted := ds.deleted + 1 },
          out ++ [printLine strategy (resourceIDToString obj.groupKind name ++ " " ++ "deleted")])
      | .deleteSkipped =>
        some ({ ds with skipped := ds.skipped + 1 },
          out ++ [printLine strategy (resourceIDToString obj.groupKind name ++ " " ++ "delete skipped")])

/-- The outcome of `BasicPrinter.Print`: a nil return, an error return, or a
Go crash inside the loop body. -/
inductive PrintResult where
  | ok
  | err : GoError → PrintResult
  | panicked
  deriving DecidableEq, Repr, Inhabited

/-- Everything `Print` accumulates across the loop. -/
structure PrintState where
  applyStats : ApplyStats := {}
  statusCollector : StatusCollector := {}
  pruneStats : PruneStats := {}
  deleteStats : DeleteStats := {}
  out : List String := []
  deriving DecidableEq, Repr, Inhabited

/-- The fresh state `Print` builds before the loop. -/
def initPrintState : PrintState := {}

/-- Bookkeeping: add one consumed event to a recursive result. -/
def bump (p : PrintState × PrintResult × Nat) : PrintState × PrintResult × Nat :=
  (p.1, p.2.1, p.2.2 + 1)

/-- `BasicPrinter.Print`: the `for e := range ch` loop over the (closed)
event sequence, returning the final state, the outcome, and the number of
events consumed.  An Error event returns its error immediately; events of
unhandled top-level type (Init) fall through the switch. -/
def printRun (strategy : DryRunStrategy) : List Event → PrintState → PrintState × PrintResult × Nat
  | [], st => (st, .ok, 0)
  | e :: rest, st =>
    match e.type with
    | .error => (st, .err e.errorEvent.err, 1)
    | .apply =>
      match processApplyEvent strategy e.applyEvent st.applyStats st.statusCollector st.out with
      | none => (st, .panicked, 1)
      | some (a, c, out) =>
        bump (printRun strategy rest { st with applyStats := a, statusCollector := c, out := out })
    | .status =>
      let r := processStatusEvent strategy e.statusEvent st.statusCollector st.out
      bump (printRun strategy rest { st with statusCollector := r.1, out := r.2 })
    | .prune =>
      match processPruneEvent strategy e.pruneEvent st.pruneStats st.out with
      | none => (st, .panicked, 1)
      | some (ps, out) =>
        bump (printRun strategy rest { st with pruneStats := ps, out := out })
    | .delete =>
      match processDeleteEvent strategy e.deleteEvent st.deleteStats st.out with
      | none => (st, .panicked, 1)
      | some (ds, out) =>
        bump (printRun strategy rest { st with deleteStats := ds, out := out })
    | .init => bump (printRun strategy rest st)

/-- An event the printer's loop body survives: resource updates must carry
an object, and apply resource updates must carry an operation the
`applyStats.inc` switch handles (`Failed` is not handled). -/
def wellFormedEvent (e : Event) : Bool :=
  match e.type with
  | .apply =>
    match e.applyEvent.type with
    | .completed => true
    | .resourceUpdate => e.applyEvent.object.isSome && !(e.applyEvent.operation = .failed)
  | .prune =>
    match e.pruneEvent.type with
    | .completed => true
    | .resourceUpdate => e.pruneEvent.object.isSome
  | .delete =>
    match e.deleteEvent.type with
    | .completed => true
    | .resourceUpdate => e.deleteEvent.object.isSome
  | _ => true

/-- The prune resource updates the `pruned` tally counts. -/
def isPrunedUpdate (e : Event) : Bool :=
  match e.type, e.pruneEvent.type, e.pruneEvent.operation with
  | .prune, .resourceUpdate, .pruned => true
  | _, _, _ => false

/-- The prune resource updates the `skipped` tally counts. -/
def isPruneSkippedUpdate (e : Event) : Bool :=
  match e.type, e.pruneEvent.type, e.pruneEvent.operation with
  | .prune, .resourceUpdate, .pruneSkipped => true
  | _, _, _ => false

/-- A bare prune-phase-completed event. -/
def pruneCompletedEvent : Event :=
  { type := .prune, pruneEvent := { type := .completed } }

/-! ## Derived views used to state the claims -/

/-- The entries of an input info batch that `SplitInfos` routes to the
inventory list: non-nil, with a non-nil object recognized as a marker. -/
def markersOf (infos : List (Option Info)) : List Info :=
  infos.filterMap (fun oi =>
    match oi with
    | none => none
    | some info =>
      if info.object.isSome then
        if IsInventoryObject (InfoToUnstructured info) then some info else none
      else none)

/-- The entries `SplitInfos` routes to the resource list: non-nil, with a
non-nil object, not recognized as a marker. -/
def nonMarkersOf (infos : List (Option Info)) : List Info :=
  infos.filterMap (fun oi =>
    match oi with
    | none => none
    | some info =>
      if info.object.isSome then
        if IsInventoryObject (InfoToUnstructured info) then none else some info
      else none)

/-! ## Concrete fixtures used by witnesses and counterexamples -/

/-- A marker object: carries the inventory label with a non-blank value. -/
def wMarkerObj : Unstructured :=
  { name := "inv", group := "", kind := "ConfigMap", labels := [(InventoryLabel, "id")] }

/-- A second marker object. -/
def wMarkerObj2 : Unstructured :=
  { name := "inv2", group := "", kind := "ConfigMap", labels := [(InventoryLabel, "id2")] }

/-- A plain (non-marker) resource object. -/
def wPlainObj : Unstructured :=
  { name := "cm", group := "", kind := "ConfigMap", labels := [] }

/-- An object whose inventory label value is only whitespace. -/
def wBlankLabelObj : Unstructured :=
  { name := "ws", group := "", kind := "ConfigMap", labels := [(InventoryLabel, "  ")] }

/-- An apply resource update carrying the unhandled `Failed` operation. -/
def failedApplyEvent : Event :=
  { type := .apply,
    applyEvent := { type := .resourceUpdate, operation := .failed, object := some wPlainObj } }

/-- A prune resource update with operation `Pruned`. -/
def wPrunedEvent : Event :=
  { type := .prune,
    pruneEvent := { type := .resourceUpdate, operation := .pruned, object := some wPlainObj } }

/-- A prune resource update with operation `PruneSkipped`. -/
def wSkippedEvent : Event :=
  { type := .prune,
    pruneEvent := { type := .resourceUpdate, operation := .pruneSkipped, object := some wPlainObj } }

/-- Destroyer inputs whose prune step fails. -/
def wFatalInputs : DestroyerInputs :=
  { getObjects := .ok [some { name := "inv", object := some wMarkerObj }],
    pruneMsgs := [wPrunedEvent],
    pruneErr := some (.errorf "boom"),
    deleteInvErr := none }

/-- Destroyer inputs for a clean run whose marker deletion fails. -/
def wCleanInputs : DestroyerInputs :=
  { getObjects := .ok [some { name := "inv", object := some wMarkerObj }],
    pruneMsgs := [wPrunedEvent, wSkippedEvent],
    pruneErr := none,
    deleteInvErr := some (.errorf "marker delete failed") }

end CliUtils

namespace CliUtils

/-! # Theorems -/

/-- The split loop routes exactly the marker entries to the inventory list
and the remaining live entries to the resource list. -/
theorem splitInfosLoop_eq (infos : List (Option Info)) :
    splitInfosLoop infos = (markersOf infos, nonMarkersOf infos) := by
  induction infos with
  | nil => rfl
  | cons oi rest ih =>
    cases oi with
    | none => simpa [splitInfosLoop, markersOf, nonMarkersOf, List.filterMap_cons] using ih
    | some info =>
      by_cases hobj : info.object.isSome
      · by_cases hinv : IsInventoryObject (InfoToUnstructured info)
        · simp [splitInfosLoop, markersOf, nonMarkersOf, List.filterMap_cons, hobj, hinv, ih]
        · simp [splitInfosLoop, markersOf, nonMarkersOf, List.filterMap_cons, hobj, hinv, ih]
      · simp [splitInfosLoop, markersOf, nonMarkersOf, List.filterMap_cons, hobj] at ih ⊢
        simpa using ih

/-- C1: splitting an input batch yields the single marker plus all non-marker
resources when exactly one marker is present; zero markers fails with
`NoInventoryObjError`; two or more markers fails with
`MultipleInventoryObjError` listing every marker candidate. -/
theorem splitInfos_marker_cases (infos : List (Option Info)) :
    ((markersOf infos).length = 1 →
      SplitInfos infos = ((markersOf infos).head?, nonMarkersOf infos, none)) ∧
    (markersOf infos = [] →
      SplitInfos infos = (none, nonMarkersOf infos, some .noInventoryObj)) ∧
    (2 ≤ (markersOf infos).length →
      SplitInfos infos = (none, nonMarkersOf infos,
        some (.multipleInventoryObj ((markersOf infos).map InfoToUnstructured)))) := by
  refine ⟨?_, ?_, ?_⟩
  · intro h1
    simp only [SplitInfos, splitInfosLoop_eq, h1]
    norm_num
  · intro h0
    simp only [SplitInfos, splitInfosLoop_eq, h0]
    simp
  · intro h2
    simp only [SplitInfos, splitInfosLoop_eq]
    rw [if_neg (by omega), if_pos (by omega)]

/-- C1 witness: a concrete three-entry batch in each of the three cases. -/
theorem splitInfos_marker_cases_witness :
    SplitInfos [some { name := "inv", object := some wMarkerObj },
        some { name := "cm", object := some wPlainObj }, none]
      = (some { name := "inv", object := some wMarkerObj },
          [{ name := "cm", object := some wPlainObj }], none) ∧
    SplitInfos [some { name := "cm", object := some wPlainObj }]
      = (none, [{ name := "cm", object := some wPlainObj }], some .noInventoryObj) ∧
    SplitInfos [some { name := "inv", object := some wMarkerObj },
        some { name := "inv2", object := some wMarkerObj2 }]
      = (none, [], some (.multipleInventoryObj [some wMarkerObj, some wMarkerObj2])) := by
  refine ⟨?_, ?_, ?_⟩
  · exact (splitInfos_marker_cases _).1 (by decide) |>.trans (by decide)
  · exact (splitInfos_marker_cases _).2.1 (by decide) |>.trans (by decide)
  · exact (splitInfos_marker_cases _).2.2 (by decide) |>.trans (by decide)

/-- The unstructured split loop partitions its input by `IsInventoryObject`. -/
theorem splitUnstructuredsLoop_eq (objs : List (Option Unstructured)) :
    splitUnstructuredsLoop objs
      = (objs.filter (fun o => IsInventoryObject o), objs.filter (fun o => !IsInventoryObject o)) := by
  induction objs with
  | nil => rfl
  | cons obj rest ih =>
    by_cases h : IsInventoryObject obj
    · simp [splitUnstructuredsLoop, h, ih]
    · simp [splitUnstructuredsLoop, h, ih]

/-- The resource component of `SplitUnstructureds` is the non-marker filter
of the input, on every path (success and both error paths). -/
theorem splitUnstructureds_resources (objs : List (Option Unstructured)) :
    (SplitUnstructureds objs).2.1 = objs.filter (fun o => !IsInventoryObject o) := by
  simp only [SplitUnstructureds, splitUnstructuredsLoop_eq]
  split_ifs <;> rfl

/-- C9: an object is recognized as the inventory marker iff it is non-nil and
carries the inventory label with a value that is non-empty after trimming
whitespace; an object whose label value trims to empty is not a marker and is
placed among the ordinary resources by the split. -/
theorem isInventoryObject_characterization :
    (∀ obj : Option Unstructured, IsInventoryObject obj = true ↔
      ∃ u v, obj = some u ∧ lookupLabel u.labels InventoryLabel = some v ∧
        0 < (strTrim v).length) ∧
    (∀ objs : List (Option Unstructured),
      (SplitUnstructureds objs).2.1 = objs.filter (fun o => !IsInventoryObject o)) ∧
    (∀ (u : Unstructured) (v : String) (objs : List (Option Unstructured)),
      lookupLabel u.labels InventoryLabel = some v → strTrim v = "" →
      some u ∈ objs → some u ∈ (SplitUnstructureds objs).2.1) := by
  have hchar : ∀ obj : Option Unstructured, IsInventoryObject obj = true ↔
      ∃ u v, obj = some u ∧ lookupLabel u.labels InventoryLabel = some v ∧
        0 < (strTrim v).length := by
    intro obj
    cases obj with
    | none => simp [IsInventoryObject]
    | some u =>
      cases hl : lookupLabel u.labels InventoryLabel with
      | none => simp [IsInventoryObject, retrieveInventoryLabel, hl]
      | some v => simp [IsInventoryObject, retrieveInventoryLabel, hl]
  refine ⟨hchar, splitUnstructureds_resources, ?_⟩
  intro u v objs hl htrim hmem
  rw [splitUnstructureds_resources]
  rw [List.mem_filter]
  refine ⟨hmem, ?_⟩
  have : ¬ IsInventoryObject (some u) = true := by
    rw [hchar]
    rintro ⟨u', v', hu, hl', hlen⟩
    obtain rfl : u = u' := by injection hu
    rw [hl] at hl'
    obtain rfl : v = v' := by injection hl'
    rw [htrim] at hlen
    simp at hlen
  simp [this]

/-- C9 witness: the whitespace-valued label object is not a marker and lands
among the resources. -/
theorem isInventoryObject_characterization_witness :
    some wBlankLabelObj ∈ (SplitUnstructureds [some wMarkerObj, some wBlankLabelObj]).2.1 :=
  isInventoryObject_characterization.2.2 wBlankLabelObj "  " _ (by decide) (by decide)
    (by decide)

/-- C10: when neither the stored name nor the object's name is the reserved
legacy default name, `fixLegacyInventoryName` returns nil and leaves the info
(and its object) completely unchanged. -/
theorem fixLegacyInventoryName_frame (seed : Int) (info : Info) (u : Unstructured)
    (hobj : info.object = some u) (h1 : info.name ≠ legacyInvName) (h2 : u.name ≠ legacyInvName) :
    fixLegacyInventoryName (some info) seed = (some info, none) := by
  simp [fixLegacyInventoryName, hobj, h1, h2]

/-- C10 witness. -/
theorem fixLegacyInventoryName_frame_witness :
    fixLegacyInventoryName (some { name := "myapp", object := some wMarkerObj }) 7
      = (some { name := "myapp", object := some wMarkerObj }, none) :=
  fixLegacyInventoryName_frame 7 _ wMarkerObj rfl (by decide) (by decide)

/-- `dropWhile` is the identity on a list none of whose elements satisfy the
predicate. -/
theorem dropWhile_eq_self_of {p : Char → Bool} (l : List Char)
    (h : ∀ c ∈ l, p c = false) : l.dropWhile p = l := by
  cases l with
  | nil => rfl
  | cons a l => simp [List.dropWhile_cons, h a (by simp)]

/-- Trimming a list without whitespace characters is the identity. -/
theorem trimChars_eq_self (l : List Char) (h : ∀ c ∈ l, isGoSpace c = false) :
    trimChars l = l := by
  unfold trimChars
  rw [dropWhile_eq_self_of l h,
    dropWhile_eq_self_of l.reverse (fun c hc => h c (List.mem_reverse.mp hc)),
    List.reverse_reverse]

/-- `strings.TrimSpace` is the identity on a string without whitespace. -/
theorem strTrim_eq_self (s : String) (h : ∀ c ∈ s.data, isGoSpace c = false) :
    strTrim s = s := by
  unfold strTrim
  rw [trimChars_eq_self s.data h]

/-- No character of a generated random suffix is whitespace. -/
theorem randomStr_no_space (seed : Int) : ∀ c ∈ (RandomStr seed).data, isGoSpace c = false := by
  intro c hc
  simp only [RandomStr, List.mem_map, List.mem_range] at hc
  obtain ⟨i, _, rfl⟩ := hc
  have hlt : (seed.natAbs + 31 * i) % randomCharset.length < randomCharset.length :=
    Nat.mod_lt _ (by decide)
  rw [List.getD_eq_getElem _ _ hlt]
  have hall : ∀ c ∈ randomCharset, isGoSpace c = false := by decide
  exact hall _ (List.getElem_mem hlt)

/-- A generated random suffix has length 8. -/
theorem randomStr_length (seed : Int) : (RandomStr seed).length = 8 := by
  simp [RandomStr, String.length]

/-- Trimming a generated random suffix is the identity. -/
theorem strTrim_randomStr (seed : Int) : strTrim (RandomStr seed) = RandomStr seed :=
  strTrim_eq_self _ (randomStr_no_space seed)

/-- C5: a marker named exactly the reserved legacy default name gets the
non-empty random suffix appended exactly once (to both the stored name and
the object's name); appending a whitespace-only suffix is an error, and
appending the suffix to the already-suffixed name is rejected; both error
paths leave the info unchanged. -/
theorem fixLegacy_appends_suffix_once (seed : Int) (info : Info) (u : Unstructured)
    (hobj : info.object = some u) (hn : info.name = legacyInvName)
    (hu : u.name = legacyInvName) :
    ∃ info', fixLegacyInventoryName (some info) seed = (some info', none) ∧
      info'.name = legacyInvName ++ "-" ++ RandomStr seed ∧
      info'.object = some { u with name := legacyInvName ++ "-" ++ RandomStr seed } ∧
      0 < (RandomStr seed).length ∧
      (∀ s, strTrim s = "" →
        addSuffixToName (some info) s = (some info, some (.errorf "passed empty suffix"))) ∧
      addSuffixToName (some info') (RandomStr seed)
        = (some info', some (.errorf ("name already has suffix: " ++ info'.name))) := by
  have hsfx := strTrim_randomStr seed
  have hlen : (strTrim (RandomStr seed)).length = 8 := by rw [hsfx]; exact randomStr_length seed
  have hnosuffix : hasSuffix legacyInvName ("-" ++ strTrim (RandomStr seed)) = false := by
    rw [hsfx]
    by_contra hcon
    have htrue : hasSuffix legacyInvName ("-" ++ RandomStr seed) = true := by
      revert hcon
      cases hasSuffix legacyInvName ("-" ++ RandomStr seed) <;> simp
    have hsuf : ("-" ++ RandomStr seed).data <:+ legacyInvName.data :=
      List.isSuffixOf_iff_suffix.mp htrue
    have hlens : ("-" ++ RandomStr seed).data.length = legacyInvName.data.length := by
      have h1 : ("-" ++ RandomStr seed).data = '-' :: (RandomStr seed).data := by
        simp [String.data_append]
      rw [h1]
      have h2 : (RandomStr seed).data.length = 8 := randomStr_length seed
      simp [h2]
      decide
    have heq := hsuf.eq_of_length hlens
    have h1 : ("-" ++ RandomStr seed).data = '-' :: (RandomStr seed).data := by
      simp [String.data_append]
    rw [h1] at heq
    have hleg : legacyInvName.data = 'i' :: "nventory".data := rfl
    rw [hleg] at heq
    injection heq with hhead _
    exact absurd hhead (by decide)
  -- the successful first application
  have hadd : addSuffixToName (some info) (RandomStr seed)
      = (some ({ name := legacyInvName ++ ("-" ++ RandomStr seed),
                 object := some { u with name := legacyInvName ++ ("-" ++ RandomStr seed) } } : Info),
         none) := by
    simp only [addSuffixToName, accessorGetName, hobj, hn, hu]
    rw [if_neg (by omega)]
    rw [if_neg (by simp)]
    rw [if_neg (by rw [hnosuffix]; simp)]
    simp [hsfx]
  refine ⟨({ name := legacyInvName ++ ("-" ++ RandomStr seed),
             object := some { u with name := legacyInvName ++ ("-" ++ RandomStr seed) } } : Info),
    ?_, ?_, ?_, ?_, ?_, ?_⟩
  · simp only [fixLegacyInventoryName, hobj, hn]
    simpa using hadd
  · rw [String.append_assoc]
  · rw [String.append_assoc]
  · rw [randomStr_length]; omega
  · intro s hs
    have : (strTrim s).length = 0 := by rw [hs]; rfl
    simp [addSuffixToName, this]
  · have hyes : hasSuffix (legacyInvName ++ ("-" ++ RandomStr seed))
        ("-" ++ strTrim (RandomStr seed)) = true := by
      rw [hsfx]
      apply List.isSuffixOf_iff_suffix.mpr
      rw [String.data_append]
      exact List.suffix_append _ _
    simp only [addSuffixToName, accessorGetName]
    rw [if_neg (by omega)]
    rw [if_neg (by simp)]
    rw [if_pos (by rw [hyes])]

/-- C5 witness: the concrete legacy-named marker at seed 42. -/
theorem fixLegacy_appends_suffix_once_witness :
    fixLegacyInventoryName
        (some { name := "inventory", object := some { wMarkerObj with name := "inventory" } }) 42
      = (some ({ name := "inventory-" ++ RandomStr 42,
                 object := some { wMarkerObj with name := "inventory-" ++ RandomStr 42 } } : Info),
         none) := by
  obtain ⟨info', h1, h2, h3, -, -, -⟩ :=
    fixLegacy_appends_suffix_once 42
      { name := "inventory", object := some { wMarkerObj with name := "inventory" } }
      { wMarkerObj with name := "inventory" } rfl (by decide) (by decide)
  rw [h1]
  have : info' = ({ name := "inventory-" ++ RandomStr 42,
                    object := some { wMarkerObj with name := "inventory-" ++ RandomStr 42 } } : Info) := by
    cases info' with
    | mk n o =>
      simp only at h2 h3
      rw [h2, h3]
      have : legacyInvName ++ "-" ++ RandomStr 42 = "inventory-" ++ RandomStr 42 := rfl
      simp [this]
  rw [this]

/-- C8 counterexample: `Failed` is a declared member of the apply operation
enum (spec, §3), yet it reaches the aborting default branch of
`applyStats.inc` — so it is not only values outside the declared enum that
reach the panic. -/
theorem applyStats_inc_failed_aborts :
    ApplyStats.inc {} ApplyEventOperation.failed = none := rfl

/-- C8 (amended): for every apply operation in {ServersideApplied, Created,
Unchanged, Configured}, `applyStats.inc` increments the matching counter and
does not reach the aborting default branch, and for every prune operation in
{Pruned, PruneSkipped}, `transformPruneOperation` returns the corresponding
delete operation and never reaches its default branch; for the apply switch,
exactly the operations outside those four — including the declared operation
`Failed` — reach the panic. -/
theorem enum_switch_defaults :
    (∀ a : ApplyStats,
      a.inc .serversideApplied = some { a with serversideApplied := a.serversideApplied + 1 } ∧
      a.inc .created = some { a with created := a.created + 1 } ∧
      a.inc .unchanged = some { a with unchanged := a.unchanged + 1 } ∧
      a.inc .configured = some { a with configured := a.configured + 1 }) ∧
    (∀ (a : ApplyStats) (op : ApplyEventOperation), a.inc op = none ↔ op = .failed) ∧
    (transformPruneOperation .pruned = some .deleted ∧
      transformPruneOperation .pruneSkipped = some .deleteSkipped) ∧
    (∀ op : PruneEventOperation, (transformPruneOperation op).isSome = true) := by
  refine ⟨fun a => ⟨rfl, rfl, rfl, rfl⟩, fun a op => ?_, ⟨rfl, rfl⟩, fun op => ?_⟩
  · cases op <;> simp [ApplyStats.inc]
  · cases op <;> rfl

/-- C8 witness: the theorem applied at concrete operations. -/
theorem enum_switch_defaults_witness :
    ApplyStats.inc {} ApplyEventOperation.created = some { created := 1 } ∧
    transformPruneOperation .pruned = some .deleted :=
  ⟨(enum_switch_defaults.1 {}).2.1, enum_switch_defaults.2.2.1.1⟩

/-- The transformer body never reaches the aborting branch and produces
exactly the spec's relabeled event. -/
theorem transformPruneMsg_eq (msg : Event) :
    transformPruneMsg msg = some (deleteEventFor msg) := by
  cases h : msg.pruneEvent.operation <;>
    simp [transformPruneMsg, transformPruneOperation, deleteEventFor, h]

/-- The transformer goroutine maps its whole input stream. -/
theorem runPruneEventTransformer_eq (msgs : List Event) :
    runPruneEventTransformer msgs = some (msgs.map deleteEventFor) := by
  induction msgs with
  | nil => rfl
  | cons m rest ih =>
    rw [runPruneEventTransformer] at ih ⊢
    rw [List.mapM_cons, transformPruneMsg_eq, ih]
    rfl

/-- Every event the transformer republishes is Delete-typed. -/
theorem transformed_all_delete (msgs : List Event) :
    ∀ e ∈ msgs.map deleteEventFor, e.type = .delete := by
  intro e he
  obtain ⟨m, -, rfl⟩ := List.mem_map.mp he
  rfl

/-- C2: every Prune event from the engine is relabeled into a Delete event
before reaching the public stream — a resource update with operation Pruned
becomes a Delete resource update with operation Deleted, PruneSkipped becomes
DeleteSkipped, with the same object carried through — and no Prune-typed
event is ever emitted on the Destroyer's public channel. -/
theorem pruneEventTransformer_relabels :
    (∀ msgs : List Event, runPruneEventTransformer msgs = some (msgs.map deleteEventFor)) ∧
    (∀ msg : Event,
      (deleteEventFor msg).type = .delete ∧
      (deleteEventFor msg).deleteEvent.type = .resourceUpdate ∧
      (deleteEventFor msg).deleteEvent.object = msg.pruneEvent.object ∧
      (msg.pruneEvent.operation = .pruned →
        (deleteEventFor msg).deleteEvent.operation = .deleted) ∧
      (msg.pruneEvent.operation = .pruneSkipped →
        (deleteEventFor msg).deleteEvent.operation = .deleteSkipped)) ∧
    (∀ inp : DestroyerInputs, ∀ e ∈ (destroyerRun inp).1, e.type ≠ .prune) := by
  refine ⟨runPruneEventTransformer_eq, ?_, ?_⟩
  · intro msg
    refine ⟨rfl, rfl, rfl, ?_, ?_⟩ <;> intro hop <;> simp [deleteEventFor, hop]
  · intro inp e he
    rcases hg : inp.getObjects with err | infos
    · simp only [destroyerRun, hg] at he
      simp at he
      rw [he]
      simp [mkErrorEvent]
    · rcases hsplit : SplitInfos infos with ⟨invInfo, resources, serr⟩
      cases serr with
      | some err =>
        simp only [destroyerRun, hg, hsplit] at he
        simp at he
        rw [he]
        simp [mkErrorEvent]
      | none =>
        simp only [destroyerRun, hg, hsplit] at he
        cases hp : inp.pruneErr with
        | some err =>
          simp only [hp, runPruneEventTransformer_eq, Option.getD_some, List.mem_append,
            List.mem_singleton] at he
          rcases he with he | he
          · rw [transformed_all_delete _ e he]
            simp
          · rw [he]
            simp [mkErrorEvent]
        | none =>
          simp only [hp, runPruneEventTransformer_eq, Option.getD_some, List.mem_append,
            List.mem_singleton] at he
          rcases he with he | he
          · rw [transformed_all_delete _ e he]
            simp
          · rw [he]
            simp

/-- C2 witness: the relabeling applied to concrete Pruned and PruneSkipped
updates, and a concrete republished event that is not Prune-typed. -/
theorem pruneEventTransformer_relabels_witness :
    (deleteEventFor wPrunedEvent).deleteEvent.operation = .deleted ∧
    (deleteEventFor wSkippedEvent).deleteEvent.operation = .deleteSkipped ∧
    (deleteEventFor wPrunedEvent).type ≠ EventType.prune :=
  ⟨(pruneEventTransformer_relabels.2.1 wPrunedEvent).2.2.2.1 rfl,
   (pruneEventTransformer_relabels.2.1 wSkippedEvent).2.2.2.2 rfl,
   pruneEventTransformer_relabels.2.2 wCleanInputs (deleteEventFor wPrunedEvent) (by decide)⟩

/-- Structure of the public event stream of one Destroyer run: a (possibly
empty) block of Delete-typed events followed by a single final event, which
is Error-typed exactly when the run is fatal and Delete-typed otherwise. -/
theorem destroyerRun_shape (inp : DestroyerInputs) :
    ∃ l x, (destroyerRun inp).1 = l ++ [x] ∧ (∀ e ∈ l, e.type = .delete) ∧
      (x.type = .error ↔ destroyerFatal inp = true) ∧
      (x.type = .error ∨ x.type = .delete) := by
  rcases hg : inp.getObjects with err | infos
  · refine ⟨[], mkErrorEvent (.wrapped "error reading resource manifests" err),
      ?_, by simp, ?_, Or.inl rfl⟩
    · simp only [destroyerRun, hg]
      rw [List.nil_append]
    · simp [mkErrorEvent, destroyerFatal, hg]
  · rcases hsplit : SplitInfos infos with ⟨invInfo, resources, serr⟩
    cases serr with
    | some err =>
      refine ⟨[], mkErrorEvent (.wrapped "error clearing inventory object" err),
        ?_, by simp, ?_, Or.inl rfl⟩
      · simp only [destroyerRun, hg, hsplit]
        rw [List.nil_append]
      · simp [mkErrorEvent, destroyerFatal, hg, hsplit]
    | none =>
      cases hp : inp.pruneErr with
      | some err =>
        refine ⟨inp.pruneMsgs.map deleteEventFor,
          mkErrorEvent (.wrapped "error pruning resources" err), ?_, transformed_all_delete _,
          ?_, Or.inl rfl⟩
        · simp only [destroyerRun, hg, hsplit, hp, runPruneEventTransformer_eq,
            Option.getD_some]
        · simp [mkErrorEvent, destroyerFatal, hg, hsplit, hp]
      | none =>
        refine ⟨inp.pruneMsgs.map deleteEventFor,
          { type := .delete, deleteEvent := { type := .completed } }, ?_,
          transformed_all_delete _, ?_, Or.inr rfl⟩
        · simp only [destroyerRun, hg, hsplit, hp, runPruneEventTransformer_eq,
            Option.getD_some]
        · simp [destroyerFatal, hg, hsplit, hp]

/-- C3: once an Error event is emitted on the Destroyer's public channel it is
the last event of that run (the list of events before channel closure ends at
it), at most one Error event ever appears, and a fatal failure produces
exactly one Error event. -/
theorem destroyer_error_event_is_last (inp : DestroyerInputs) :
    (∀ i (h : i < (destroyerRun inp).1.length),
      ((destroyerRun inp).1[i]).type = .error → i + 1 = (destroyerRun inp).1.length) ∧
    ((destroyerRun inp).1.countP (fun e => e.type == .error) ≤ 1) ∧
    (destroyerFatal inp = true →
      (destroyerRun inp).1.countP (fun e => e.type == .error) = 1) := by
  obtain ⟨l, x, hev, hl, hiff, -⟩ := destroyerRun_shape inp
  rw [hev]
  have hcount0 : l.countP (fun e => e.type == .error) = 0 :=
    List.countP_eq_zero.mpr (fun e he => by simp [hl e he])
  refine ⟨?_, ?_, ?_⟩
  · intro i h htype
    have hlen : (l ++ [x]).length = l.length + 1 := by simp
    by_cases hi : i < l.length
    · exfalso
      rw [List.getElem_append] at htype
      rw [dif_pos hi] at htype
      have := hl _ (List.getElem_mem hi)
      rw [htype] at this
      exact absurd this (by simp)
    · rw [hlen] at h ⊢
      omega
  · rw [List.countP_append, hcount0]
    simp [List.countP_cons]
    split_ifs <;> simp
  · intro hfatal
    have hx : x.type = .error := hiff.mpr hfatal
    rw [List.countP_append, hcount0]
    simp [List.countP_cons, hx]

/-- C3 witness: a run with a prune failure emits its single Error event in
final position. -/
theorem destroyer_error_event_is_last_witness :
    1 + 1 = (destroyerRun wFatalInputs).1.length ∧
    (destroyerRun wFatalInputs).1.countP (fun e => e.type == .error) = 1 :=
  ⟨(destroyer_error_event_is_last wFatalInputs).1 1 (by decide) (by decide),
   (destroyer_error_event_is_last wFatalInputs).2.2 (by decide)⟩

/-- C4: in every run, the inventory marker deletion appears in the side-call
trace only after the prune invocation that issues every other prune attempt,
and the error the marker deletion returns has no effect on the emitted event
stream (it produces no Error event and does not change the reported result). -/
theorem destroyer_marker_deletion (inp : DestroyerInputs) :
    (∀ r, DestroyAction.deleteMarker r ∈ (destroyerRun inp).2 →
      (destroyerRun inp).2 = [DestroyAction.pruneCall, DestroyAction.deleteMarker r]) ∧
    (∀ r, (destroyerRun { inp with deleteInvErr := r }).1 = (destroyerRun inp).1) := by
  constructor
  · intro r hmem
    rcases hg : inp.getObjects with err | infos
    · simp only [destroyerRun, hg] at hmem
      simp at hmem
    · rcases hsplit : SplitInfos infos with ⟨invInfo, resources, serr⟩
      cases serr with
      | some err =>
        simp only [destroyerRun, hg, hsplit] at hmem
        simp at hmem
      | none =>
        simp only [destroyerRun, hg, hsplit] at hmem ⊢
        cases hp : inp.pruneErr with
        | some err =>
          simp only [hp] at hmem ⊢
          cases hinv : invInfo.isSome with
          | false =>
            simp only [hinv] at hmem
            simp at hmem
          | true =>
            simp only [hinv] at hmem ⊢
            simp at hmem ⊢
            exact hmem.symm
        | none =>
          simp only [hp] at hmem ⊢
          cases hinv : invInfo.isSome with
          | false =>
            simp only [hinv] at hmem
            simp at hmem
          | true =>
            simp only [hinv] at hmem ⊢
            simp at hmem ⊢
            exact hmem.symm
  · intro r
    rcases hg : inp.getObjects with err | infos
    · simp only [destroyerRun, hg]
    · rcases hsplit : SplitInfos infos with ⟨invInfo, resources, serr⟩
      cases serr with
      | some err =>
        simp only [destroyerRun, hg, hsplit]
      | none =>
        simp only [destroyerRun, hg, hsplit]
        cases hp : inp.pruneErr <;> simp only [hp]

/-- C4 witness: a clean run whose marker deletion fails reports the same
events as one whose marker deletion succeeds, with the marker deletion traced
strictly after the prune call. -/
theorem destroyer_marker_deletion_witness :
    (destroyerRun wCleanInputs).2
      = [DestroyAction.pruneCall, DestroyAction.deleteMarker (some (.errorf "marker delete failed"))] ∧
    (destroyerRun { wCleanInputs with deleteInvErr := none }).1 = (destroyerRun wCleanInputs).1 :=
  ⟨(destroyer_marker_deletion wCleanInputs).1 (some (.errorf "marker delete failed")) (by decide),
   (destroyer_marker_deletion wCleanInputs).2 none⟩

/-- One well-formed, non-error event advances the Print loop to a successor
state, from which the loop continues on the remaining events; the prune
tallies grow by exactly the event's contribution. -/
theorem printRun_cons_step (strategy : DryRunStrategy) (e : Event) (st : PrintState)
    (he : e.type ≠ .error) (hwf : wellFormedEvent e = true) :
    ∃ st' : PrintState,
      (∀ rest, printRun strategy (e :: rest) st = bump (printRun strategy rest st')) ∧
      st'.pruneStats.pruned = st.pruneStats.pruned + (if isPrunedUpdate e then 1 else 0) ∧
      st'.pruneStats.skipped = st.pruneStats.skipped + (if isPruneSkippedUpdate e then 1 else 0) := by
  cases hty : e.type with
  | error => exact absurd hty he
  | init =>
    refine ⟨st, ?_, ?_, ?_⟩
    · intro rest
      simp [printRun, hty]
    · simp [isPrunedUpdate, hty]
    · simp [isPruneSkippedUpdate, hty]
  | status =>
    refine ⟨{ st with
        statusCollector := (processStatusEvent strategy e.statusEvent st.statusCollector st.out).1,
        out := (processStatusEvent strategy e.statusEvent st.statusCollector st.out).2 },
      ?_, ?_, ?_⟩
    · intro rest
      simp [printRun, hty]
    · simp [isPrunedUpdate, hty]
    · simp [isPruneSkippedUpdate, hty]
  | apply =>
    rw [wellFormedEvent, hty] at hwf
    have hproc : (processApplyEvent strategy e.applyEvent st.applyStats st.statusCollector st.out).isSome = true := by
      cases hat : e.applyEvent.type with
      | completed => simp [processApplyEvent, hat]
      | resourceUpdate =>
        rw [hat] at hwf
        simp only [Bool.and_eq_true, Bool.not_eq_true', decide_eq_false_iff_not] at hwf
        obtain ⟨obj, hobj⟩ := Option.isSome_iff_exists.mp hwf.1
        cases hop : e.applyEvent.operation with
        | failed => exact absurd hop hwf.2
        | serversideApplied => simp [processApplyEvent, hat, hobj, ApplyStats.inc, hop]
        | created => simp [processApplyEvent, hat, hobj, ApplyStats.inc, hop]
        | unchanged => simp [processApplyEvent, hat, hobj, ApplyStats.inc, hop]
        | configured => simp [processApplyEvent, hat, hobj, ApplyStats.inc, hop]
    obtain ⟨⟨a, c, out⟩, hpa⟩ := Option.isSome_iff_exists.mp hproc
    refine ⟨{ st with applyStats := a, statusCollector := c, out := out }, ?_, ?_, ?_⟩
    · intro rest
      simp [printRun, hty, hpa]
    · simp [isPrunedUpdate, hty]
    · simp [isPruneSkippedUpdate, hty]
  | prune =>
    rw [wellFormedEvent, hty] at hwf
    cases hpt : e.pruneEvent.type with
    | completed =>
      refine ⟨{ st with out := st.out ++
          [printLine strategy (pruneSummaryLine st.pruneStats.pruned st.pruneStats.skipped)] },
        ?_, ?_, ?_⟩
      · intro rest
        simp [printRun, hty, processPruneEvent, hpt]
      · simp [isPrunedUpdate, hty, hpt]
      · simp [isPruneSkippedUpdate, hty, hpt]
    | resourceUpdate =>
      rw [hpt] at hwf
      obtain ⟨obj, hobj⟩ := Option.isSome_iff_exists.mp hwf
      cases hop : e.pruneEvent.operation with
      | pruned =>
        refine ⟨{ st with
            pruneStats := { st.pruneStats with pruned := st.pruneStats.pruned + 1 },
            out := st.out ++ [printLine strategy
              (resourceIDToString obj.groupKind (getName e.pruneEvent.object) ++ " " ++ "pruned")] },
          ?_, ?_, ?_⟩
        · intro rest
          simp [printRun, hty, processPruneEvent, hpt, hobj, hop]
        · simp [isPrunedUpdate, hty, hpt, hop]
        · simp [isPruneSkippedUpdate, hty, hpt, hop]
      | pruneSkipped =>
        refine ⟨{ st with
            pruneStats := { st.pruneStats with skipped := st.pruneStats.skipped + 1 },
            out := st.out ++ [printLine strategy
              (resourceIDToString obj.groupKind (getName e.pruneEvent.object) ++ " " ++ "prune skipped")] },
          ?_, ?_, ?_⟩
        · intro rest
          simp [printRun, hty, processPruneEvent, hpt, hobj, hop]
        · simp [isPrunedUpdate, hty, hpt, hop]
        · simp [isPruneSkippedUpdate, hty, hpt, hop]
  | delete =>
    rw [wellFormedEvent, hty] at hwf
    cases hdt : e.deleteEvent.type with
    | completed =>
      refine ⟨{ st with out := st.out ++
          [printLine strategy (deleteSummaryLine st.deleteStats.deleted st.deleteStats.skipped)] },
        ?_, ?_, ?_⟩
      · intro rest
        simp [printRun, hty, processDeleteEvent, hdt]
      · simp [isPrunedUpdate, hty]
      · simp [isPruneSkippedUpdate, hty]
    | resourceUpdate =>
      rw [hdt] at hwf
      obtain ⟨obj, hobj⟩ := Option.isSome_iff_exists.mp hwf
      cases hop : e.deleteEvent.operation with
      | deleted =>
        refine ⟨{ st with
            deleteStats := { st.deleteStats with deleted := st.deleteStats.deleted + 1 },
            out := st.out ++ [printLine strategy
              (resourceIDToString obj.groupKind (getName e.deleteEvent.object) ++ " " ++ "deleted")] },
          ?_, ?_, ?_⟩
        · intro rest
          simp [printRun, hty, processDeleteEvent, hdt, hobj, hop]
        · simp [isPrunedUpdate, hty]
        · simp [isPruneSkippedUpdate, hty]
      | deleteSkipped =>
        refine ⟨{ st with
            deleteStats := { st.deleteStats with skipped := st.deleteStats.skipped + 1 },
            out := st.out ++ [printLine strategy
              (resourceIDToString obj.groupKind (getName e.deleteEvent.object) ++ " " ++ "delete skipped")] },
          ?_, ?_, ?_⟩
        · intro rest
          simp [printRun, hty, processDeleteEvent, hdt, hobj, hop]
        · simp [isPrunedUpdate, hty]
        · simp [isPruneSkippedUpdate, hty]

/-- A sequence of well-formed, non-error events runs to a nil return,
consuming every event. -/
theorem printRun_ok_of_wf (strategy : DryRunStrategy) (es : List Event) : ∀ st : PrintState,
    (∀ e ∈ es, e.type ≠ .error ∧ wellFormedEvent e = true) →
    (printRun strategy es st).2 = (.ok, es.length) := by
  induction es with
  | nil =>
    intro st h
    simp [printRun]
  | cons e rest ih =>
    intro st h
    obtain ⟨st', hstep, -, -⟩ :=
      printRun_cons_step strategy e st (h e (by simp)).1 (h e (by simp)).2
    rw [hstep rest]
    have hr := ih st' (fun x hx => h x (by simp [hx]))
    have h1 : (printRun strategy rest st').2.1 = .ok := by rw [hr]
    have h2 : (printRun strategy rest st').2.2 = rest.length := by rw [hr]
    simp [bump, h1, h2]

/-- Running the printer over an append whose first part is well formed splits
into the two runs, with consumption adding up. -/
theorem printRun_append_of_wf (strategy : DryRunStrategy) (a b : List Event) : ∀ st : PrintState,
    (∀ e ∈ a, e.type ≠ .error ∧ wellFormedEvent e = true) →
    printRun strategy (a ++ b) st
      = ((printRun strategy b (printRun strategy a st).1).1,
         (printRun strategy b (printRun strategy a st).1).2.1,
         a.length + (printRun strategy b (printRun strategy a st).1).2.2) := by
  induction a with
  | nil =>
    intro st h
    simp [printRun]
  | cons e a' ih =>
    intro st h
    obtain ⟨st', hstep, -, -⟩ :=
      printRun_cons_step strategy e st (h e (by simp)).1 (h e (by simp)).2
    rw [List.cons_append, hstep (a' ++ b), hstep a', ih st' (fun x hx => h x (by simp [hx]))]
    simp [bump]
    omega

/-- Under a well-formed run the prune tallies equal the event counts. -/
theorem printRun_prune_counts (strategy : DryRunStrategy) (es : List Event) : ∀ st : PrintState,
    (∀ e ∈ es, e.type ≠ .error ∧ wellFormedEvent e = true) →
    (printRun strategy es st).1.pruneStats.pruned
      = st.pruneStats.pruned + es.countP isPrunedUpdate ∧
    (printRun strategy es st).1.pruneStats.skipped
      = st.pruneStats.skipped + es.countP isPruneSkippedUpdate := by
  induction es with
  | nil =>
    intro st h
    simp [printRun]
  | cons e rest ih =>
    intro st h
    obtain ⟨st', hstep, hp, hs⟩ :=
      printRun_cons_step strategy e st (h e (by simp)).1 (h e (by simp)).2
    rw [hstep rest]
    have hr := ih st' (fun x hx => h x (by simp [hx]))
    have hb : (bump (printRun strategy rest st')).1 = (printRun strategy rest st').1 := rfl
    rw [hb]
    constructor
    · rw [hr.1, hp, List.countP_cons]
      cases hpe : isPrunedUpdate e <;> simp [hpe] <;> omega
    · rw [hr.2, hs, List.countP_cons]
      cases hpe : isPruneSkippedUpdate e <;> simp [hpe] <;> omega

/-- A well-formed prefix followed by an Error event makes the loop return
that event's error, having consumed exactly the prefix plus the Error
event, independent of anything after it. -/
theorem printRun_err_of_wf (strategy : DryRunStrategy) (pre : List Event) :
    ∀ (eEv : Event) (rest : List Event) (st : PrintState),
    (∀ x ∈ pre, x.type ≠ .error ∧ wellFormedEvent x = true) → eEv.type = .error →
    (printRun strategy (pre ++ eEv :: rest) st).2 = (.err eEv.errorEvent.err, pre.length + 1) := by
  induction pre with
  | nil =>
    intro eEv rest st h htype
    simp [printRun, htype]
  | cons x pre' ih =>
    intro eEv rest st h htype
    obtain ⟨st', hstep, -, -⟩ :=
      printRun_cons_step strategy x st (h x (by simp)).1 (h x (by simp)).2
    rw [List.cons_append, hstep (pre' ++ eEv :: rest)]
    have hr := ih eEv rest st' (fun y hy => h y (by simp [hy])) htype
    have h1 : (printRun strategy (pre' ++ eEv :: rest) st').2.1 = .err eEv.errorEvent.err := by
      rw [hr]
    have h2 : (printRun strategy (pre' ++ eEv :: rest) st').2.2 = pre'.length + 1 := by
      rw [hr]
    simp [bump, h1, h2]

/-- C6 counterexample: an event sequence with no Error-typed event on which
Print does not return nil — the loop body aborts on the declared apply
operation `Failed`, which `applyStats.inc` does not handle. -/
theorem print_no_error_yet_not_ok :
    (∀ e ∈ [failedApplyEvent], e.type ≠ EventType.error) ∧
    (printRun .noDryRun [failedApplyEvent] initPrintState).2.1 ≠ PrintResult.ok := by
  constructor
  · intro e he
    rw [List.mem_singleton] at he
    rw [he]
    decide
  · have hres : (printRun .noDryRun [failedApplyEvent] initPrintState).2.1
        = PrintResult.panicked := rfl
    rw [hres]
    decide

/-- C6 (amended): for every event sequence whose events are well formed
(resource updates carry an object; apply updates carry an operation the
printer's switch handles, which excludes `Failed`): if the sequence ends
without any Error-typed event, Print returns nil after consuming every
event; if an Error-typed event appears after a well-formed error-free
prefix, Print immediately returns the error it carries and consumes no
further events, regardless of any events before or after it. -/
theorem print_return_semantics (strategy : DryRunStrategy) :
    (∀ (es : List Event) (st : PrintState),
      (∀ e ∈ es, e.type ≠ .error ∧ wellFormedEvent e = true) →
      (printRun strategy es st).2 = (.ok, es.length)) ∧
    (∀ (pre rest : List Event) (eEv : Event) (st : PrintState),
      (∀ x ∈ pre, x.type ≠ .error ∧ wellFormedEvent x = true) → eEv.type = .error →
      (printRun strategy (pre ++ eEv :: rest) st).2 = (.err eEv.errorEvent.err, pre.length + 1)) :=
  ⟨fun es st h => printRun_ok_of_wf strategy es st h,
   fun pre rest eEv st h ht => printRun_err_of_wf strategy pre eEv rest st h ht⟩

/-- C6 witness: a clean two-event run returns nil; a run hitting an Error
event returns its error having consumed only two events. -/
theorem print_return_semantics_witness :
    (printRun .noDryRun [wPrunedEvent, pruneCompletedEvent] initPrintState).2 = (.ok, 2) ∧
    (printRun .noDryRun ([wPrunedEvent] ++ mkErrorEvent (.errorf "fatal") :: [wSkippedEvent])
        initPrintState).2 = (.err (.errorf "fatal"), 2) := by
  constructor
  · exact (print_return_semantics .noDryRun).1 [wPrunedEvent, pruneCompletedEvent]
      initPrintState (by decide)
  · have h := (print_return_semantics .noDryRun).2 [wPrunedEvent] [wSkippedEvent]
      (mkErrorEvent (.errorf "fatal")) initPrintState (by decide) (by decide)
    simpa using h

/-- C7: the counts in the printed prune summary line equal the numbers of
Pruned and PruneSkipped prune resource updates consumed before the
PruneEventCompleted event — the tally is purely a projection of the event
stream. -/
theorem prune_summary_counts (strategy : DryRunStrategy) (es : List Event)
    (h : ∀ e ∈ es, e.type ≠ .error ∧ wellFormedEvent e = true) :
    ((printRun strategy (es ++ [pruneCompletedEvent]) initPrintState).1.out).getLast?
      = some (printLine strategy
          (pruneSummaryLine (es.countP isPrunedUpdate) (es.countP isPruneSkippedUpdate))) := by
  rw [printRun_append_of_wf strategy es [pruneCompletedEvent] initPrintState h]
  have hcounts := printRun_prune_counts strategy es initPrintState h
  have hstep : printRun strategy [pruneCompletedEvent] (printRun strategy es initPrintState).1
      = bump (printRun strategy []
          { (printRun strategy es initPrintState).1 with
            out := (printRun strategy es initPrintState).1.out ++
              [printLine strategy (pruneSummaryLine
                (printRun strategy es initPrintState).1.pruneStats.pruned
                (printRun strategy es initPrintState).1.pruneStats.skipped)] }) := by
    simp [printRun, pruneCompletedEvent, processPruneEvent]
  rw [hstep]
  simp only [printRun, bump]
  rw [List.getLast?_concat]
  rw [hcounts.1, hcounts.2]
  simp [initPrintState]

/-- C7 witness: three prune updates (two pruned, one skipped) produce the
summary line "2 resource(s) pruned, 1 skipped". -/
theorem prune_summary_counts_witness :
    ((printRun .noDryRun ([wPrunedEvent, wSkippedEvent, wPrunedEvent] ++ [pruneCompletedEvent])
        initPrintState).1.out).getLast? = some "2 resource(s) pruned, 1 skipped" := by
  have h := prune_summary_counts .noDryRun [wPrunedEvent, wSkippedEvent, wPrunedEvent] (by decide)
  rw [h]
  decide

end CliUtils
